import Mathlib

/-!
Shallow embedding of the realtime chat client (fatalieff/realtime-chat-app)
and proofs of the spec claims about it. The definitions below translate the
TypeScript source files:
  * src/src/components/chat.tsx        — chat view: message list, send, typing, presence
  * src/src/app/verify/page.tsx        — OTP verification page and landing (login/register) page
  * src/src/context/AuthContext.tsx    — auth provider
  * src/unnamed/part_000               — ChatPage route guard
-/

namespace RealtimeChat

/-- JavaScript `String.prototype.trim()`: strip whitespace from both ends of
the string. Modelled directly on the character sequence. -/
def jsTrim (s : String) : String :=
  ⟨(((s.data.dropWhile Char.isWhitespace).reverse.dropWhile Char.isWhitespace).reverse)⟩

/-- The `Message` row (src/src/app/types, used throughout chat.tsx):
an identifier, an author display name, free-text content, and a creation
timestamp. The fields are exactly the ones chat.tsx reads
(`msg.id`, `msg.username`, `msg.content`, `msg.created_at`). -/
structure Message where
  id : Nat
  username : String
  content : String
  created_at : Nat
deriving DecidableEq, Repr

/-- chat.tsx lines 138-140 and 212-214: both the realtime INSERT callback and
the optimistic append in `handleSend` update the list with
`prev.some((m) => m.id === msg.id) ? prev : [...prev, msg]`. -/
def insertMessageIfAbsent (msg : Message) (prev : List Message) : List Message :=
  if prev.any (fun m => m.id == msg.id) then prev else prev ++ [msg]

/-- The local view state of the chat component that `handleSend` touches
(chat.tsx lines 25-28). -/
structure ChatState where
  messages : List Message
  newMessage : String
  loading : Bool
  error : Option String
deriving DecidableEq, Repr

/-- chat.tsx `handleSend` (lines 188-218). The outcome of the single
`insert(...).select("*").single()` round-trip is passed in as `insertResult`
(`.error` carries `insError.message`, `.ok` carries the returned row). The
result pairs the next state with the number of insert calls performed. -/
def handleSend (supabasePresent : Bool) (insertResult : Except String Message)
    (s : ChatState) : ChatState × Nat :=
  let content := jsTrim s.newMessage
  if content = "" ∨ supabasePresent = false then (s, 0)
  else
    let s1 : ChatState := { s with loading := true, error := none }
    match insertResult with
    | .error e => ({ s1 with loading := false, error := some e }, 1)
    | .ok inserted =>
        ({ s1 with
            loading := false,
            messages := insertMessageIfAbsent inserted s1.messages,
            newMessage := "" }, 1)

/-- chat.tsx `fetchMessages` (lines 89-92) builds one query; this record
captures its parameters. -/
structure MessagesQuery where
  table : String
  selectAll : Bool
  orderColumn : String
  orderAscending : Bool
deriving DecidableEq, Repr

/-- The query `supabase.from("messages").select("*").order("created_at",
{ ascending: true })` issued by `fetchMessages`. -/
def fetchMessagesQuery : MessagesQuery :=
  { table := "messages"
    selectAll := true
    orderColumn := "created_at"
    orderAscending := true }

/-- chat.tsx lines 94-95: how `fetchMessages` folds the query outcome into
the view state (`if (fetchError) setError(...) else if (data) setMessages(data)`). -/
def applyFetchResult (result : Except String (List Message)) (s : ChatState) : ChatState :=
  match result with
  | .error e => { s with error := some e }
  | .ok data => { s with messages := data }

section MessageLemmas

lemma insertMessageIfAbsent_map_id_nodup (msg : Message) (prev : List Message)
    (h : (prev.map Message.id).Nodup) :
    ((insertMessageIfAbsent msg prev).map Message.id).Nodup := by
  unfold insertMessageIfAbsent
  by_cases hmem : prev.any (fun m => m.id == msg.id)
  · simp [hmem, h]
  · simp only [hmem, if_neg, Bool.not_eq_true, List.map_append, List.map_cons, List.map_nil]
    rw [List.nodup_append]
    refine ⟨h, List.nodup_singleton _, ?_⟩
    intro a ha hb
    simp only [List.mem_singleton] at hb
    subst hb
    simp only [List.any_eq_true, beq_iff_eq, not_exists, not_and] at hmem
    push_neg at hmem
    simp only [List.mem_map] at ha
    obtain ⟨m, hm, hid⟩ := ha
    exact hmem m hm hid

lemma insertMessageIfAbsent_mem_id (msg : Message) (prev : List Message) :
    msg.id ∈ (insertMessageIfAbsent msg prev).map Message.id := by
  unfold insertMessageIfAbsent
  by_cases hmem : prev.any (fun m => m.id == msg.id)
  · simp only [hmem, if_pos]
    simp only [List.any_eq_true, beq_iff_eq] at hmem
    obtain ⟨m, hm, hid⟩ := hmem
    exact List.mem_map.mpr ⟨m, hm, hid⟩
  · simp [hmem]

lemma countP_id_eq_one (l : List Message) (i : Nat)
    (hnd : (l.map Message.id).Nodup) (hmem : i ∈ l.map Message.id) :
    l.countP (fun m => m.id == i) = 1 := by
  induction l with
  | nil => simp at hmem
  | cons m rest ih =>
      simp only [List.map_cons, List.nodup_cons] at hnd
      simp only [List.map_cons, List.mem_cons] at hmem
      by_cases hid : m.id = i
      · subst hid
        rw [List.countP_cons]
        have hzero : rest.countP (fun x => x.id == m.id) = 0 := by
          rw [List.countP_eq_zero]
          intro a ha
          simp only [beq_iff_eq]
          intro hcontra
          exact hnd.1 (List.mem_map.mpr ⟨a, ha, hcontra⟩)
        simp [hzero]
      · rw [List.countP_cons]
        have hrest : i ∈ rest.map Message.id := by
          rcases hmem with h | h
          · exact absurd h.symm hid
          · exact h
        have := ih hnd.2 hrest
        simp [this, hid]

end MessageLemmas

/-- C1: the rendered message list never contains two entries with the same
identifier: each of the two call sites appends only when no message with the
id is present, so a locally inserted message later echoed by the realtime
feed appears exactly once. -/
theorem no_duplicate_message_ids (msg : Message) (prev : List Message)
    (h : (prev.map Message.id).Nodup) :
    ((insertMessageIfAbsent msg prev).map Message.id).Nodup ∧
    ((insertMessageIfAbsent msg (insertMessageIfAbsent msg prev)).map Message.id).Nodup ∧
    (insertMessageIfAbsent msg (insertMessageIfAbsent msg prev)).countP
      (fun m => m.id == msg.id) = 1 := by
  have h1 := insertMessageIfAbsent_map_id_nodup msg prev h
  have h2 := insertMessageIfAbsent_map_id_nodup msg _ h1
  refine ⟨h1, h2, ?_⟩
  exact countP_id_eq_one _ _ h2 (insertMessageIfAbsent_mem_id msg _)

/-- Witness for C1 at a concrete list and message. -/
theorem no_duplicate_message_ids_witness :
    (([⟨1, "a", "hi", 0⟩].map Message.id).Nodup) ∧
    ((insertMessageIfAbsent ⟨2, "b", "yo", 1⟩
        (insertMessageIfAbsent ⟨2, "b", "yo", 1⟩ [⟨1, "a", "hi", 0⟩])).countP
      (fun m => m.id == 2) = 1) :=
  ⟨by decide,
   (no_duplicate_message_ids ⟨2, "b", "yo", 1⟩ [⟨1, "a", "hi", 0⟩] (by decide)).2.2⟩

/-- C2: when the trimmed input is empty, `handleSend` performs no insert call
and leaves the whole view state unchanged. -/
theorem handleSend_empty_input_noop (supabasePresent : Bool)
    (insertResult : Except String Message) (s : ChatState)
    (h : jsTrim s.newMessage = "") :
    handleSend supabasePresent insertResult s = (s, 0) := by
  unfold handleSend
  simp [h]

/-- Witness for C2 on a whitespace-only input. -/
theorem handleSend_empty_input_noop_witness :
    (jsTrim "  " = "") ∧
    handleSend true (.ok ⟨1, "a", "hi", 0⟩)
      { messages := [], newMessage := "  ", loading := false, error := none } =
      ({ messages := [], newMessage := "  ", loading := false, error := none }, 0) :=
  ⟨by decide,
   handleSend_empty_input_noop true (.ok ⟨1, "a", "hi", 0⟩)
     { messages := [], newMessage := "  ", loading := false, error := none } (by decide)⟩

/-- C6: when the insert call errors, `handleSend` shows the provider message
verbatim as the inline error, performs exactly one insert call (no retry),
keeps the message list, does not clear the input, and ends with loading
false. -/
theorem handleSend_error_verbatim_no_retry (e : String) (s : ChatState)
    (h : jsTrim s.newMessage ≠ "") :
    (handleSend true (.error e) s).2 = 1 ∧
    (handleSend true (.error e) s).1.error = some e ∧
    (handleSend true (.error e) s).1.messages = s.messages ∧
    (handleSend true (.error e) s).1.newMessage = s.newMessage ∧
    (handleSend true (.error e) s).1.loading = false := by
  unfold handleSend
  simp [h]

/-- Witness for C6 at a concrete state and error string. -/
theorem handleSend_error_verbatim_no_retry_witness :
    (jsTrim "hi" ≠ "") ∧
    ((handleSend true (.error "boom")
        { messages := [⟨1, "a", "x", 0⟩], newMessage := "hi", loading := false,
          error := none }).1.error = some "boom") :=
  ⟨by decide,
   (handleSend_error_verbatim_no_retry "boom"
     { messages := [⟨1, "a", "x", 0⟩], newMessage := "hi", loading := false,
       error := none } (by decide)).2.1⟩

/-- C9: the initial fetch queries all rows of the `messages` table ordered by
`created_at` ascending; success replaces the local list with exactly the
fetched rows, failure records the error message and leaves the list
unchanged. -/
theorem fetchMessages_query_and_result (s : ChatState) (data : List Message) (e : String) :
    fetchMessagesQuery.table = "messages" ∧
    fetchMessagesQuery.selectAll = true ∧
    fetchMessagesQuery.orderColumn = "created_at" ∧
    fetchMessagesQuery.orderAscending = true ∧
    (applyFetchResult (.ok data) s).messages = data ∧
    (applyFetchResult (.error e) s).error = some e ∧
    (applyFetchResult (.error e) s).messages = s.messages := by
  refine ⟨rfl, rfl, rfl, rfl, rfl, rfl, rfl⟩

/-- chat.tsx line 162: the typing-indicator expiry delay in milliseconds. -/
def typingDelayMs : Nat := 3000

/-- The typing-indicator state of the chat view: the rendered list
(`typingUsers`, chat.tsx line 30) and the pending per-user expiry timers
(`typingTimeoutsRef`, line 32), each carried as its owner name together with
its absolute firing deadline. -/
structure TypingState where
  typingUsers : List String
  typingTimeouts : List (String × Nat)
deriving DecidableEq, Repr

/-- chat.tsx lines 150-163: the `typing` broadcast handler, received at time
`now`. An empty payload name or the local `username` is ignored; otherwise
the name is appended only if absent, its previous timer (if any) is
cancelled, and a fresh timer with deadline `now + typingDelayMs` is
installed in its place. -/
def onTypingBroadcast (username typingUser : String) (now : Nat)
    (s : TypingState) : TypingState :=
  if typingUser = "" ∨ typingUser = username then s
  else
    { typingUsers :=
        if typingUser ∈ s.typingUsers then s.typingUsers
        else s.typingUsers ++ [typingUser]
      typingTimeouts :=
        (typingUser, now + typingDelayMs) ::
          s.typingTimeouts.filter (fun e => e.1 != typingUser) }

/-- Passage of time up to instant `now`: every pending timer whose deadline
has been reached fires its callback (chat.tsx lines 160-162), which removes
its name from the typing list; a fired timer never fires again. -/
def onElapse (now : Nat) (s : TypingState) : TypingState :=
  let fired := s.typingTimeouts.filter (fun e => decide (e.2 ≤ now))
  { typingUsers := s.typingUsers.filter (fun u => ! fired.any (fun e => e.1 == u))
    typingTimeouts := s.typingTimeouts.filter (fun e => ! decide (e.2 ≤ now)) }

/-- An event acting on the typing-indicator state: a received `typing`
broadcast, or the passage of time up to an instant. -/
inductive TypingEvent where
  | signal (payloadUsername : String) (now : Nat)
  | elapse (now : Nat)
deriving DecidableEq, Repr

/-- One event step of the typing-indicator state machine, for a client whose
local display name is `username`. -/
def typingStep (username : String) (s : TypingState) : TypingEvent → TypingState
  | .signal u now => onTypingBroadcast username u now s
  | .elapse now => onElapse now s

/-- Run a sequence of events from a state. -/
def typingRun (username : String) (s : TypingState) (evs : List TypingEvent) : TypingState :=
  evs.foldl (typingStep username) s

/-- Does the event carry a typing broadcast from `name`? -/
def isSignalFrom (name : String) : TypingEvent → Bool
  | .signal u _ => u == name
  | .elapse _ => false

/-- Either `name` is no longer shown as typing, or every pending timer owned
by `name` (and there is one) has deadline `d`. -/
def TimerInv (name : String) (d : Nat) (s : TypingState) : Prop :=
  name ∉ s.typingUsers ∨
    ((name, d) ∈ s.typingTimeouts ∧
      ∀ e ∈ s.typingTimeouts, e.1 = name → e.2 = d)

section TypingLemmas

lemma timerInv_onTypingBroadcast_self (me name : String) (now : Nat)
    (s : TypingState) (hne : name ≠ "") (hnotme : name ≠ me) :
    TimerInv name (now + typingDelayMs) (onTypingBroadcast me name now s) := by
  have hcond : ¬ (name = "" ∨ name = me) := by
    rintro (h | h)
    · exact hne h
    · exact hnotme h
  unfold TimerInv onTypingBroadcast
  right
  rw [if_neg hcond]
  refine ⟨List.mem_cons_self _ _, ?_⟩
  intro e he hkey
  rcases List.mem_cons.mp he with he | he
  · subst he; rfl
  · exfalso
    have hf := (List.mem_filter.mp he).2
    simp only [bne_iff_ne, ne_eq] at hf
    exact hf hkey

lemma mem_typingUsers_onTypingBroadcast (me name : String) (now : Nat)
    (s : TypingState) (hne : name ≠ "") (hnotme : name ≠ me) :
    name ∈ (onTypingBroadcast me name now s).typingUsers := by
  unfold onTypingBroadcast
  simp only [hne, hnotme, or_self, if_false]
  by_cases hmem : name ∈ s.typingUsers
  · simp [hmem]
  · simp [hmem]

lemma timerInv_step_other (me name : String) (d : Nat) (s : TypingState)
    (ev : TypingEvent) (hev : isSignalFrom name ev = false)
    (hinv : TimerInv name d s) : TimerInv name d (typingStep me s ev) := by
  cases ev with
  | signal u now =>
      simp only [isSignalFrom, beq_eq_false_iff_ne, ne_eq] at hev
      simp only [typingStep]
      unfold onTypingBroadcast
      by_cases htriv : u = "" ∨ u = me
      · rw [if_pos htriv]; exact hinv
      · simp only [htriv, if_false]
        rcases hinv with hout | ⟨hmem, huniq⟩
        · left
          by_cases hu : u ∈ s.typingUsers
          · simpa [hu] using hout
          · simp only [hu, if_false, List.mem_append, List.mem_singleton]
            rintro (h | h)
            · exact hout h
            · exact hev h.symm
        · right
          constructor
          · exact List.mem_cons_of_mem _
              (List.mem_filter.mpr ⟨hmem, by simp [bne_iff_ne]; exact fun h => hev h.symm⟩)
          · intro e he hkey
            rcases List.mem_cons.mp he with he | he
            · exfalso; subst he; exact hev hkey
            · exact huniq e (List.mem_filter.mp he).1 hkey
  | elapse now =>
      simp only [typingStep]
      unfold onElapse
      rcases hinv with hout | ⟨hmem, huniq⟩
      · left
        intro hcontra
        exact hout (List.mem_filter.mp hcontra).1
      · by_cases hd : d ≤ now
        · left
          intro hcontra
          have := (List.mem_filter.mp hcontra).2
          simp only [Bool.not_eq_true', List.any_eq_false, beq_iff_eq] at this
          exact absurd rfl
            (this (name, d) (List.mem_filter.mpr ⟨hmem, by simpa using hd⟩))
        · right
          constructor
          · exact List.mem_filter.mpr ⟨hmem, by simpa using hd⟩
          · intro e he hkey
            exact huniq e (List.mem_filter.mp he).1 hkey

lemma timerInv_run_other (me name : String) (d : Nat) (s : TypingState)
    (evs : List TypingEvent) (hevs : ∀ e ∈ evs, isSignalFrom name e = false)
    (hinv : TimerInv name d s) : TimerInv name d (typingRun me s evs) := by
  induction evs generalizing s with
  | nil => exact hinv
  | cons ev rest ih =>
      exact ih (typingStep me s ev)
        (fun e he => hevs e (List.mem_cons_of_mem _ he))
        (timerInv_step_other me name d s ev (hevs ev (List.mem_cons_self _ _)) hinv)

lemma not_typing_after_fire (name : String) (d now : Nat) (s : TypingState)
    (hinv : TimerInv name d s) (hd : d ≤ now) :
    name ∉ (onElapse now s).typingUsers := by
  unfold onElapse
  rcases hinv with hout | ⟨hmem, _⟩
  · intro hcontra
    exact hout (List.mem_filter.mp hcontra).1
  · intro hcontra
    have := (List.mem_filter.mp hcontra).2
    simp only [Bool.not_eq_true', List.any_eq_false, beq_iff_eq] at this
    exact absurd rfl
      (this (name, d) (List.mem_filter.mpr ⟨hmem, by simpa using hd⟩))

end TypingLemmas

/-- C3: a typing broadcast from a non-empty name different from the local
username puts that name into the typing indicator list, and — the timeout
being the fixed 3000 ms — if no further typing signal from that name
arrives, the name is gone once the deadline `now + typingDelayMs` is
reached. -/
theorem typing_appears_then_expires (me name : String) (now : Nat)
    (s : TypingState) (evs : List TypingEvent)
    (hne : name ≠ "") (hnotme : name ≠ me)
    (hevs : ∀ e ∈ evs, isSignalFrom name e = false) :
    name ∈ (typingStep me s (.signal name now)).typingUsers ∧
    typingDelayMs = 3000 ∧
    name ∉ (typingStep me
        (typingRun me (typingStep me s (.signal name now)) evs)
        (.elapse (now + typingDelayMs))).typingUsers := by
  refine ⟨mem_typingUsers_onTypingBroadcast me name now s hne hnotme, rfl, ?_⟩
  have h1 := timerInv_onTypingBroadcast_self me name now s hne hnotme
  have h2 := timerInv_run_other me name (now + typingDelayMs) _ evs hevs h1
  exact not_typing_after_fire name (now + typingDelayMs) (now + typingDelayMs) _ h2 le_rfl

/-- Witness for C3: one broadcast from `alice`, an unrelated broadcast and a
pre-deadline elapse in between, then the deadline. -/
theorem typing_appears_then_expires_witness :
    ("alice" ≠ "") ∧
    "alice" ∈ (typingStep "me" ⟨[], []⟩ (.signal "alice" 0)).typingUsers ∧
    "alice" ∉ (typingStep "me"
        (typingRun "me" (typingStep "me" ⟨[], []⟩ (.signal "alice" 0))
          [.signal "bob" 100, .elapse 500])
        (.elapse (0 + typingDelayMs))).typingUsers := by
  have h := typing_appears_then_expires "me" "alice" 0 ⟨[], []⟩
    [.signal "bob" 100, .elapse 500] (by decide) (by decide) (by decide)
  exact ⟨by decide, h.1, h.2.2⟩

/-- C4: when a typing signal arrives for a name already shown as typing, the
rendered list is unchanged (so the name is not duplicated and distinctness
is preserved), while the old timer for that name is cancelled and replaced
by a fresh one with deadline `now + typingDelayMs` — the last signal wins. -/
theorem typing_resend_resets_timer (me name : String) (now : Nat)
    (s : TypingState) (hne : name ≠ "") (hnotme : name ≠ me)
    (hmem : name ∈ s.typingUsers) :
    (onTypingBroadcast me name now s).typingUsers = s.typingUsers ∧
    (name, now + typingDelayMs) ∈ (onTypingBroadcast me name now s).typingTimeouts ∧
    (∀ e ∈ (onTypingBroadcast me name now s).typingTimeouts,
      e.1 = name → e.2 = now + typingDelayMs) ∧
    (s.typingUsers.Nodup → (onTypingBroadcast me name now s).typingUsers.Nodup) := by
  have hcond : ¬ (name = "" ∨ name = me) := by

    rintro (h | h)
    · exact hne h
    · exact hnotme h
  unfold onTypingBroadcast
  simp only [if_neg hcond, if_pos hmem]
  refine ⟨by simp, List.mem_cons_self _ _, ?_, fun h => h⟩
  intro e he hkey
  rcases List.mem_cons.mp he with he | he
  · subst he; rfl
  · exfalso
    have hf := (List.mem_filter.mp he).2
    simp only [bne_iff_ne, ne_eq] at hf
    exact hf hkey

/-- Witness for C4 with `alice` already typing and an old timer pending. -/
theorem typing_resend_resets_timer_witness :
    (onTypingBroadcast "me" "alice" 40 ⟨["alice"], [("alice", 10)]⟩).typingUsers
        = ["alice"] ∧
    ("alice", 40 + typingDelayMs) ∈
      (onTypingBroadcast "me" "alice" 40 ⟨["alice"], [("alice", 10)]⟩).typingTimeouts := by
  have h := typing_resend_resets_timer "me" "alice" 40 ⟨["alice"], [("alice", 10)]⟩
    (by decide) (by decide) (by decide)
  exact ⟨h.1, h.2.1⟩

/-- A browser key-value storage area (`sessionStorage` / `localStorage`),
as an association list keyed by the item name. -/
def Store := List (String × String)

/-- `storage.setItem(key, value)`: the key now maps to `value`. -/
def setItem (key value : String) (st : Store) : Store :=
  (key, value) :: st.filter (fun e => e.1 != key)

/-- `storage.removeItem(key)`. -/
def removeItem (key : String) (st : Store) : Store :=
  st.filter (fun e => e.1 != key)

/-- `storage.getItem(key)`. -/
def getItem (key : String) (st : Store) : Option String :=
  (st.find? (fun e => e.1 == key)).map Prod.snd

/-- The browser's two storage areas; the application writes registration
handoff values only to the session-scoped one. -/
structure BrowserStorage where
  sessionStore : Store
  localStore : Store

/-- The error string shown when the SDK client is absent (verify/page.tsx
lines 188 and 216 and the landing banner at line 287). -/
def supabaseMissingMsg : String :=
  "Supabase connection not found. Please add NEXT_PUBLIC_SUPABASE_URL and NEXT_PUBLIC_SUPABASE_ANON_KEY to your .env.local file."

/-- The observable outcome of `handleRegister` (verify/page.tsx lines
210-265): inline error, success flag, resulting browser storage, and the
number of `signInWithOtp` calls made. -/
structure RegisterOutcome where
  regError : Option String
  regSuccess : Bool
  storage : BrowserStorage
  otpCalls : Nat

/-- verify/page.tsx `handleRegister` (lines 210-265). `otpResult` is the
outcome of the single `signInWithOtp` call (`some` carries the provider
error message). On success the pending email, username and password are
written to session storage under `auth_pending_email`,
`auth_pending_username` and `auth_pending_password` (lines 249-253). -/
def handleRegister (supabasePresent : Bool) (otpResult : Option String)
    (regEmail regUsername regPassword : String)
    (storage : BrowserStorage) : RegisterOutcome :=
  if supabasePresent = false then
    { regError := some supabaseMissingMsg, regSuccess := false
      storage := storage, otpCalls := 0 }
  else
    let email := jsTrim regEmail
    let username := jsTrim regUsername
    let password := regPassword
    if email = "" ∨ username = "" ∨ password = "" then
      { regError := some "Email, username and password are required."
        regSuccess := false, storage := storage, otpCalls := 0 }
    else if password.length < 6 then
      { regError := some "Password must be at least 6 characters."
        regSuccess := false, storage := storage, otpCalls := 0 }
    else
      match otpResult with
      | some e =>
          { regError := some e, regSuccess := false
            storage := storage, otpCalls := 1 }
      | none =>
          { regError := none, regSuccess := true
            storage :=
              { storage with
                  sessionStore :=
                    setItem "auth_pending_password" password
                      (setItem "auth_pending_username" username
                        (setItem "auth_pending_email" email storage.sessionStore)) }
            otpCalls := 1 }

/-- The observable outcome of `handleVerify` (verify/page.tsx lines 23-64). -/
structure VerifyOutcome where
  verror : Option String
  storage : BrowserStorage
  redirect : Option String
  updateUserCalls : Nat

/-- verify/page.tsx `handleVerify` (lines 23-64). `verifyResult` is the
outcome of the single `verifyOtp` call: `.error` carries the provider error
message, `.ok hasUser` records whether the returned session carries a user.
On success, when a pending username and password are present in session
storage, the profile is updated once and the three handoff keys are removed
(lines 44-59). -/
def handleVerify (supabasePresent : Bool) (email otp : String)
    (verifyResult : Except String Bool) (storage : BrowserStorage) : VerifyOutcome :=
  if supabasePresent = false ∨ email = "" ∨ jsTrim otp = "" then
    { verror := none, storage := storage, redirect := none, updateUserCalls := 0 }
  else
    match verifyResult with
    | .error e =>
        { verror := some e, storage := storage, redirect := none, updateUserCalls := 0 }
    | .ok hasUser =>
        let pendingUsername := getItem "auth_pending_username" storage.sessionStore
        let pendingPassword := getItem "auth_pending_password" storage.sessionStore
        if hasUser && pendingUsername.isSome && pendingPassword.isSome then
          { verror := none
            storage :=
              { storage with
                  sessionStore :=
                    removeItem "auth_pending_password"
                      (removeItem "auth_pending_username"
                        (removeItem "auth_pending_email" storage.sessionStore)) }
            redirect := some "/chat", updateUserCalls := 1 }
        else
          { verror := none, storage := storage
            redirect := some "/chat", updateUserCalls := 0 }

section StorageLemmas

lemma getItem_setItem_same (k v : String) (st : Store) :
    getItem k (setItem k v st) = some v := by
  unfold getItem setItem
  rw [List.find?_cons_of_pos _ (by simp)]
  rfl

lemma find?_filterNeKey (k k' : String) (h : k' ≠ k) (st : Store) :
    (st.filter (fun e => e.1 != k)).find? (fun e => e.1 == k') =
      st.find? (fun e => e.1 == k') := by
  induction st with
  | nil => rfl
  | cons e rest ih =>
      by_cases hk : e.1 = k
      · rw [List.filter_cons_of_neg (by simp [hk]),
          List.find?_cons_of_neg _ (by simp [hk]; exact fun he => h he.symm), ih]
      · rw [List.filter_cons_of_pos (by simp [hk])]
        by_cases hp : e.1 = k'
        · rw [List.find?_cons_of_pos _ (by simp [hp]),
            List.find?_cons_of_pos _ (by simp [hp])]
        · rw [List.find?_cons_of_neg _ (by simp [hp]),
            List.find?_cons_of_neg _ (by simp [hp]), ih]

lemma getItem_setItem_other (k k' v : String) (h : k' ≠ k) (st : Store) :
    getItem k' (setItem k v st) = getItem k' st := by
  unfold getItem setItem
  rw [List.find?_cons_of_neg _ (by simp; exact fun he => h he.symm),
    find?_filterNeKey k k' h st]

lemma getItem_removeItem_same (k : String) (st : Store) :
    getItem k (removeItem k st) = none := by
  unfold getItem removeItem
  rw [List.find?_eq_none.mpr]
  · rfl
  · intro x hx
    have := (List.mem_filter.mp hx).2
    simpa using this

lemma getItem_removeItem_other (k k' : String) (h : k' ≠ k) (st : Store) :
    getItem k' (removeItem k st) = getItem k' st := by
  unfold getItem removeItem
  rw [find?_filterNeKey k k' h st]

end StorageLemmas

/-- C5: registration writes the pending email, username and password only to
session-scoped storage under the three `auth_pending_*` keys (the other
storage area and all other session keys are untouched), and one successful
OTP verification removes all three keys. -/
theorem registration_handoff_session_only
    (regEmail regUsername regPassword otp : String) (storage : BrowserStorage)
    (he : jsTrim regEmail ≠ "") (hu : jsTrim regUsername ≠ "")
    (hp : regPassword ≠ "") (hlen : ¬ regPassword.length < 6)
    (hotp : jsTrim otp ≠ "") :
    getItem "auth_pending_email"
        (handleRegister true none regEmail regUsername regPassword storage).storage.sessionStore
      = some (jsTrim regEmail) ∧
    getItem "auth_pending_username"
        (handleRegister true none regEmail regUsername regPassword storage).storage.sessionStore
      = some (jsTrim regUsername) ∧
    getItem "auth_pending_password"
        (handleRegister true none regEmail regUsername regPassword storage).storage.sessionStore
      = some regPassword ∧
    (handleRegister true none regEmail regUsername regPassword storage).storage.localStore
      = storage.localStore ∧
    (∀ k : String, k ≠ "auth_pending_email" → k ≠ "auth_pending_username" →
      k ≠ "auth_pending_password" →
      getItem k (handleRegister true none regEmail regUsername regPassword storage).storage.sessionStore
        = getItem k storage.sessionStore) ∧
    (getItem "auth_pending_email"
        (handleVerify true (jsTrim regEmail) otp (.ok true)
          (handleRegister true none regEmail regUsername regPassword storage).storage).storage.sessionStore
      = none) ∧
    (getItem "auth_pending_username"
        (handleVerify true (jsTrim regEmail) otp (.ok true)
          (handleRegister true none regEmail regUsername regPassword storage).storage).storage.sessionStore
      = none) ∧
    (getItem "auth_pending_password"
        (handleVerify true (jsTrim regEmail) otp (.ok true)
          (handleRegister true none regEmail regUsername regPassword storage).storage).storage.sessionStore
      = none) := by
  have hcond : ¬ (jsTrim regEmail = "" ∨ jsTrim regUsername = "" ∨ regPassword = "") := by
    rintro (h | h | h)
    · exact he h
    · exact hu h
    · exact hp h
  have hreg :
      (handleRegister true none regEmail regUsername regPassword storage).storage =
        { storage with
            sessionStore :=
              setItem "auth_pending_password" regPassword
                (setItem "auth_pending_username" (jsTrim regUsername)
                  (setItem "auth_pending_email" (jsTrim regEmail) storage.sessionStore)) } := by
    unfold handleRegister
    simp only [if_neg hcond, if_neg hlen]
    rfl
  have hemail := getItem_setItem_other "auth_pending_username" "auth_pending_email"
    (jsTrim regUsername) (by decide)
    (setItem "auth_pending_email" (jsTrim regEmail) storage.sessionStore)
  have hemail2 := getItem_setItem_other "auth_pending_password" "auth_pending_email"
    regPassword (by decide)
    (setItem "auth_pending_username" (jsTrim regUsername)
      (setItem "auth_pending_email" (jsTrim regEmail) storage.sessionStore))
  have husername := getItem_setItem_other "auth_pending_password" "auth_pending_username"
    regPassword (by decide)
    (setItem "auth_pending_username" (jsTrim regUsername)
      (setItem "auth_pending_email" (jsTrim regEmail) storage.sessionStore))
  have hGetEmail :
      getItem "auth_pending_email"
        (handleRegister true none regEmail regUsername regPassword storage).storage.sessionStore
      = some (jsTrim regEmail) := by
    rw [hreg]
    show getItem "auth_pending_email" (setItem "auth_pending_password" _ _) = _
    rw [hemail2, hemail, getItem_setItem_same]
  have hGetUsername :
      getItem "auth_pending_username"
        (handleRegister true none regEmail regUsername regPassword storage).storage.sessionStore
      = some (jsTrim regUsername) := by
    rw [hreg]
    show getItem "auth_pending_username" (setItem "auth_pending_password" _ _) = _
    rw [husername, getItem_setItem_same]
  have hGetPassword :
      getItem "auth_pending_password"
        (handleRegister true none regEmail regUsername regPassword storage).storage.sessionStore
      = some regPassword := by
    rw [hreg]
    exact getItem_setItem_same _ _ _
  have hverify :
      (handleVerify true (jsTrim regEmail) otp (.ok true)
        (handleRegister true none regEmail regUsername regPassword storage).storage).storage =
      { (handleRegister true none regEmail regUsername regPassword storage).storage with
          sessionStore :=
            removeItem "auth_pending_password"
              (removeItem "auth_pending_username"
                (removeItem "auth_pending_email"
                  (handleRegister true none regEmail regUsername regPassword storage).storage.sessionStore)) } := by
    unfold handleVerify
    have hvc : ¬ (true = false ∨ jsTrim regEmail = "" ∨ jsTrim otp = "") := by
      rintro (h | h | h)
      · exact absurd h (by simp)
      · exact he h
      · exact hotp h
    rw [if_neg hvc]
    have hbranch :
        (true && (getItem "auth_pending_username"
            (handleRegister true none regEmail regUsername regPassword storage).storage.sessionStore).isSome &&
          (getItem "auth_pending_password"
            (handleRegister true none regEmail regUsername regPassword storage).storage.sessionStore).isSome) = true := by
      rw [hGetUsername, hGetPassword]
      rfl
    simp only [hbranch, if_pos]
  refine ⟨hGetEmail, hGetUsername, hGetPassword, ?_, ?_, ?_, ?_, ?_⟩
  · rw [hreg]
  · intro k hk1 hk2 hk3
    rw [hreg]
    show getItem k (setItem "auth_pending_password" _ _) = _
    rw [getItem_setItem_other _ _ _ hk3, getItem_setItem_other _ _ _ hk2,
      getItem_setItem_other _ _ _ hk1]
  · rw [hverify]
    show getItem "auth_pending_email" (removeItem "auth_pending_password" _) = _
    rw [getItem_removeItem_other _ _ (by decide), getItem_removeItem_other _ _ (by decide),
      getItem_removeItem_same]
  · rw [hverify]
    show getItem "auth_pending_username" (removeItem "auth_pending_password" _) = _
    rw [getItem_removeItem_other _ _ (by decide), getItem_removeItem_same]
  · rw [hverify]
    exact getItem_removeItem_same _ _

/-- Witness for C5 on concrete registration inputs over empty storage. -/
theorem registration_handoff_session_only_witness :
    getItem "auth_pending_username"
        (handleRegister true none "a@b.c" "alice" "hunter2" ⟨[], []⟩).storage.sessionStore
      = some "alice" ∧
    getItem "auth_pending_username"
        (handleVerify true (jsTrim "a@b.c") "123456" (.ok true)
          (handleRegister true none "a@b.c" "alice" "hunter2" ⟨[], []⟩).storage).storage.sessionStore
      = none := by
  have h := registration_handoff_session_only "a@b.c" "alice" "hunter2" "123456" ⟨[], []⟩
    (by decide) (by decide) (by decide) (by decide) (by decide)
  exact ⟨h.2.1, h.2.2.2.2.2.2.1⟩

/-- What a page renders. -/
inductive View where
  | loadingIndicator
  | emptyView
  | chatUI
  | landingUI
deriving DecidableEq, Repr

/-- Redirect target and rendered view of the chat route. -/
structure PageOutcome where
  redirect : Option String
  render : View
deriving DecidableEq, Repr

/-- unnamed/part_000 `ChatPage`: the effect at lines 12-18 redirects to "/"
when loading has finished and there is no user; the render (lines 20-35)
shows the loading indicator while loading, nothing when there is no user,
and the chat otherwise. -/
def chatPage (loading hasUser : Bool) : PageOutcome :=
  { redirect := if loading = false ∧ hasUser = false then some "/" else none
    render :=
      if loading then View.loadingIndicator
      else if hasUser = false then View.emptyView
      else View.chatUI }

/-- Redirect target, rendered view and configuration-warning banner of the
landing route. -/
structure LandingOutcome where
  redirect : Option String
  render : View
  showsConfigWarningBanner : Bool
deriving DecidableEq, Repr

/-- verify/page.tsx `LandingPage`: the effect at lines 162-168 redirects to
"/chat" when loading has finished and a user is present; the render (lines
267-289) shows the loading indicator while loading, nothing when a user is
present, and otherwise the landing content, whose warning banner appears
exactly when the SDK client is absent (line 285-289). -/
def landingPage (loading hasUser supabasePresent : Bool) : LandingOutcome :=
  { redirect := if loading = false ∧ hasUser = true then some "/chat" else none
    render :=
      if loading then View.loadingIndicator
      else if hasUser then View.emptyView
      else View.landingUI
    showsConfigWarningBanner :=
      loading = false ∧ hasUser = false ∧ supabasePresent = false }

/-- The observable outcome of `handleLogin` (verify/page.tsx lines 184-208). -/
structure LoginOutcome where
  loginError : Option String
  signInCalls : Nat
  redirect : Option String
deriving DecidableEq, Repr

/-- verify/page.tsx `handleLogin` (lines 184-208). `signInResult` is the
outcome of the single `signInWithPassword` call. -/
def handleLogin (supabasePresent : Bool) (signInResult : Option String) : LoginOutcome :=
  if supabasePresent = false then
    { loginError := some supabaseMissingMsg, signInCalls := 0, redirect := none }
  else
    match signInResult with
    | some e => { loginError := some e, signInCalls := 1, redirect := none }
    | none => { loginError := none, signInCalls := 1, redirect := some "/chat" }

/-- The auth state the provider exposes. -/
structure AuthState where
  userPresent : Bool
  loading : Bool
deriving DecidableEq, Repr

/-- AuthContext.tsx `AuthProvider` effect (lines 32-48): with no SDK client
it finishes loading with no user; otherwise the session's user is mirrored
and loading finishes. -/
def authProviderInit (supabasePresent sessionUser : Bool) : AuthState :=
  if supabasePresent = false then { userPresent := false, loading := false }
  else { userPresent := sessionUser, loading := false }

/-- C7: once auth loading has finished, an unauthenticated visitor to the
chat view is redirected to "/" and the chat view renders nothing, while an
authenticated visitor to the landing view is redirected to "/chat" and the
landing view renders nothing. -/
theorem auth_route_guards (supabasePresent : Bool) :
    (chatPage false false).redirect = some "/" ∧
    (chatPage false false).render = View.emptyView ∧
    (landingPage false true supabasePresent).redirect = some "/chat" ∧
    (landingPage false true supabasePresent).render = View.emptyView := by
  refine ⟨rfl, rfl, ?_, ?_⟩ <;> simp [landingPage]

/-- C8: with the SDK client absent the application degrades instead of
crashing: the landing view shows the warning banner, login and register set
the inline configuration error and make no external call (storage also
untouched), and the auth provider finishes loading with no user. -/
theorem missing_config_degrades_gracefully (signInResult otpResult : Option String)
    (regEmail regUsername regPassword : String) (storage : BrowserStorage)
    (sessionUser : Bool) :
    (landingPage false false false).showsConfigWarningBanner = true ∧
    (handleLogin false signInResult).loginError = some supabaseMissingMsg ∧
    (handleLogin false signInResult).signInCalls = 0 ∧
    (handleRegister false otpResult regEmail regUsername regPassword storage).regError
      = some supabaseMissingMsg ∧
    (handleRegister false otpResult regEmail regUsername regPassword storage).otpCalls = 0 ∧
    (handleRegister false otpResult regEmail regUsername regPassword storage).storage
      = storage ∧
    authProviderInit false sessionUser = { userPresent := false, loading := false } := by
  refine ⟨?_, rfl, rfl, rfl, rfl, rfl, rfl⟩
  simp [landingPage]

/-- One per-connection presence metadata entry as chat.tsx reads it (lines
249-252): an optional display name and an optional join timestamp. -/
structure PresenceMeta where
  username : Option String
  online_at : Option String
deriving DecidableEq, Repr

/-- chat.tsx line 262: `meta.username || "Unknown"` — a missing (or empty,
hence JavaScript-falsy) username renders as "Unknown". -/
def displayName (m : PresenceMeta) : String :=
  match m.username with
  | some s => if s = "" then "Unknown" else s
  | none => "Unknown"

/-- An entry of the rendered online-users list (chat.tsx lines 12-15). -/
structure OnlineUser where
  username : String
  presenceInfo : PresenceMeta
deriving DecidableEq, Repr

/-- chat.tsx lines 261-266: one step of the `uniqueByUsername` loop — record
the metadata under its display name only when the name is not yet present
(insertion order preserved, as for a JavaScript `Map`). -/
def insertUniqueByUsername (acc : List (String × PresenceMeta)) (m : PresenceMeta) :
    List (String × PresenceMeta) :=
  if acc.any (fun e => e.1 == displayName m) then acc
  else acc ++ [(displayName m, m)]

/-- chat.tsx `updateOnlineUsersFromState` (lines 248-276): flatten the
per-connection metadata lists of the presence snapshot, deduplicate by
display name keeping the first metadata seen, and format the result. -/
def updateOnlineUsersFromState (state : List (List PresenceMeta)) : List OnlineUser :=
  ((state.flatten).foldl insertUniqueByUsername []).map (fun e => ⟨e.1, e.2⟩)

section PresenceLemmas

lemma mem_keys_insertUnique (acc : List (String × PresenceMeta)) (m : PresenceMeta)
    (name : String) :
    name ∈ (insertUniqueByUsername acc m).map Prod.fst ↔
      name ∈ acc.map Prod.fst ∨ name = displayName m := by
  unfold insertUniqueByUsername
  by_cases hmem : acc.any (fun e => e.1 == displayName m)
  · rw [if_pos hmem]
    simp only [List.any_eq_true, beq_iff_eq] at hmem
    obtain ⟨e, he, hkey⟩ := hmem
    constructor
    · exact Or.inl
    · rintro (h | h)
      · exact h
      · subst h
        exact List.mem_map.mpr ⟨e, he, hkey⟩
  · rw [if_neg hmem]
    simp

lemma foldl_insertUnique_keys_nodup (metas : List PresenceMeta)
    (acc : List (String × PresenceMeta)) (h : (acc.map Prod.fst).Nodup) :
    ((metas.foldl insertUniqueByUsername acc).map Prod.fst).Nodup := by
  induction metas generalizing acc with
  | nil => exact h
  | cons m rest ih =>
      rw [List.foldl_cons]
      apply ih
      unfold insertUniqueByUsername
      by_cases hmem : acc.any (fun e => e.1 == displayName m)
      · rw [if_pos hmem]; exact h
      · rw [if_neg hmem, List.map_append, List.nodup_append]
        refine ⟨h, List.nodup_singleton _, ?_⟩
        intro a ha hb
        simp only [List.map_cons, List.map_nil, List.mem_singleton] at hb
        subst hb
        simp only [List.any_eq_true, beq_iff_eq, not_exists, not_and] at hmem
        obtain ⟨e, he, hkey⟩ := List.mem_map.mp ha
        exact hmem e he hkey

lemma mem_keys_foldl_insertUnique (metas : List PresenceMeta)
    (acc : List (String × PresenceMeta)) (name : String) :
    name ∈ (metas.foldl insertUniqueByUsername acc).map Prod.fst ↔
      name ∈ acc.map Prod.fst ∨ name ∈ metas.map displayName := by
  induction metas generalizing acc with
  | nil => simp
  | cons m rest ih =>
      rw [List.foldl_cons, ih, mem_keys_insertUnique]
      simp only [List.map_cons, List.mem_cons]
      tauto

lemma foldl_insertUnique_first_wins (metas : List PresenceMeta)
    (acc : List (String × PresenceMeta)) (n : String) (meta : PresenceMeta)
    (hmem : (n, meta) ∈ metas.foldl insertUniqueByUsername acc) :
    (n, meta) ∈ acc ∨
      (n ∉ acc.map Prod.fst ∧
        metas.find? (fun x => displayName x == n) = some meta) := by
  induction metas generalizing acc with
  | nil => exact Or.inl hmem
  | cons m rest ih =>
      rw [List.foldl_cons] at hmem
      rcases ih _ hmem with hacc | ⟨hnot, hfind⟩
      · unfold insertUniqueByUsername at hacc
        by_cases hany : acc.any (fun e => e.1 == displayName m)
        · rw [if_pos hany] at hacc
          exact Or.inl hacc
        · rw [if_neg hany] at hacc
          rcases List.mem_append.mp hacc with h | h
          · exact Or.inl h
          · simp only [List.mem_singleton, Prod.mk.injEq] at h
            obtain ⟨hn, hm⟩ := h
            right
            constructor
            · rw [hn]
              intro hcontra
              simp only [List.any_eq_true, beq_iff_eq, not_exists, not_and] at hany
              obtain ⟨e, he, hkey⟩ := List.mem_map.mp hcontra
              exact hany e he hkey
            · rw [List.find?_cons_of_pos _ (by simp [hn]), hm]
      · have hdn : n ≠ displayName m := by
          intro hcontra
          exact hnot ((mem_keys_insertUnique acc m n).mpr (Or.inr hcontra))
        right
        constructor
        · intro hcontra
          exact hnot ((mem_keys_insertUnique acc m n).mpr (Or.inl hcontra))
        · rw [List.find?_cons_of_neg _ (by simp; exact fun h => hdn h.symm)]
          exact hfind

end PresenceLemmas

/-- C10: the rendered online-users list holds at most one entry per display
name, its length equals the number of distinct display names among all
flattened per-connection metadata entries (missing names rendering as
"Unknown"), and each entry carries the first metadata seen for its name. -/
theorem online_users_deduped_by_name (state : List (List PresenceMeta)) :
    ((updateOnlineUsersFromState state).map OnlineUser.username).Nodup ∧
    (updateOnlineUsersFromState state).length
      = ((state.flatten).map displayName).dedup.length ∧
    ∀ u ∈ updateOnlineUsersFromState state,
      (state.flatten).find? (fun m => displayName m == u.username) = some u.presenceInfo := by
  have hkeys :
      ∀ st : List (List PresenceMeta),
        (updateOnlineUsersFromState st).map OnlineUser.username =
          (st.flatten.foldl insertUniqueByUsername []).map Prod.fst := by
    intro st
    unfold updateOnlineUsersFromState
    rw [List.map_map]
    rfl
  refine ⟨?_, ?_, ?_⟩
  · rw [hkeys]
    exact foldl_insertUnique_keys_nodup _ [] (by simp)
  · have hnd : ((state.flatten.foldl insertUniqueByUsername []).map Prod.fst).Nodup :=
      foldl_insertUnique_keys_nodup _ [] (by simp)
    have hmemiff : ∀ name,
        name ∈ (state.flatten.foldl insertUniqueByUsername []).map Prod.fst ↔
          name ∈ ((state.flatten).map displayName).dedup := by
      intro name
      rw [mem_keys_foldl_insertUnique, List.mem_dedup]
      simp
    have hperm := (List.perm_ext_iff_of_nodup hnd (List.nodup_dedup _)).mpr hmemiff
    calc (updateOnlineUsersFromState state).length
        = ((updateOnlineUsersFromState state).map OnlineUser.username).length :=
          (List.length_map _ _).symm
      _ = ((state.flatten.foldl insertUniqueByUsername []).map Prod.fst).length := by
          rw [hkeys]
      _ = ((state.flatten).map displayName).dedup.length := hperm.length_eq
  · intro u hu
    unfold updateOnlineUsersFromState at hu
    obtain ⟨e, he, hue⟩ := List.mem_map.mp hu
    rcases foldl_insertUnique_first_wins (state.flatten) [] e.1 e.2 he with habs | ⟨_, hfind⟩
    · exact absurd habs (List.not_mem_nil _)
    · rw [← hue]
      exact hfind

/-- Witness for C10: two connections for `a` and one anonymous connection
collapse to two rendered entries, the first metadata winning. -/
theorem online_users_deduped_by_name_witness :
    (List.flatten [[PresenceMeta.mk (some "a") none, PresenceMeta.mk none none],
        [PresenceMeta.mk (some "a") (some "t")]]).find?
      (fun m => displayName m == "a") = some (PresenceMeta.mk (some "a") none) := by
  have h := online_users_deduped_by_name
    [[PresenceMeta.mk (some "a") none, PresenceMeta.mk none none],
     [PresenceMeta.mk (some "a") (some "t")]]
  exact h.2.2 ⟨"a", PresenceMeta.mk (some "a") none⟩ (by decide)

end RealtimeChat
